import Mathlib

/-!
Verification of the habit-tracker core: the data model (src/models/habit.py),
the in-memory store (src/repositories/habit_repository.py) and the business
engine (src/services/habit_service.py), shallowly embedded in Lean.

Calendar dates are embedded as integers counting days (Python subtracts two
dates and takes the day count, so only day arithmetic matters); the ambient
clock (date.today) is passed explicitly as a parameter.
-/

namespace HabitTracker

/-- Status enum from src/models/habit.py: Literal["pending", "completed"]. -/
inductive Status where
  | pending
  | completed
deriving DecidableEq

/-- Core Habit entity, from src/models/habit.py (class Habit).
streak_days carries the pydantic constraint ge=0 structurally as a Nat;
last_completed_at is an optional calendar date (embedded as days). -/
structure Habit where
  id : Int
  name : String
  description : Option String
  status : Status
  streak_days : Nat
  last_completed_at : Option Int
deriving DecidableEq

/-- CreateHabitRequest from src/models/habit.py. -/
structure CreateHabitRequest where
  name : String
  description : Option String
deriving DecidableEq

/-- UpdateHabitRequest from src/models/habit.py; None means "field not supplied". -/
structure UpdateHabitRequest where
  name : Option String
  description : Option String
  status : Option Status
deriving DecidableEq

/-- StatsResponse from src/models/habit.py. -/
structure StatsResponse where
  total_habits : Nat
  completed_today : Nat
  active_streaks_ge_3 : Nat
deriving DecidableEq

/-- Domain error taxonomy from src/services/habit_service.py: the typed
exceptions with the payload each carries. -/
inductive ServiceError where
  | invalidHabitData (field : String) (value : String) (constraint : String)
  | habitNotFound (habit_id : Int)
  | duplicateCompletion (habit_name : String) (completion_date : Int)
deriving DecidableEq

/-- Habit fields without id, as passed to HabitRepository.create. -/
structure HabitData where
  name : String
  description : Option String
  status : Status
  streak_days : Nat
  last_completed_at : Option Int
deriving DecidableEq

/-- Partial update dictionary as passed to HabitRepository.update;
None means "key absent from the dict". -/
structure HabitUpdates where
  name : Option String := none
  description : Option (Option String) := none
  status : Option Status := none
  streak_days : Option Nat := none
  last_completed_at : Option (Option Int) := none
deriving DecidableEq

/-- The dict merge in HabitRepository.update: current_habit.dict() updated
with the given keys, all other keys (id included) preserved. -/
def applyUpdates (h : Habit) (u : HabitUpdates) : Habit :=
  { id := h.id
    name := u.name.getD h.name
    description := u.description.getD h.description
    status := u.status.getD h.status
    streak_days := u.streak_days.getD h.streak_days
    last_completed_at := u.last_completed_at.getD h.last_completed_at }

/-- In-memory store from src/repositories/habit_repository.py: the habit
dict (a Python dict keyed by id preserves insertion order, so it is embedded
as the list of its values) and the auto-increment counter. -/
structure HabitRepository where
  habits : List Habit
  next_id : Int
deriving DecidableEq

/-- HabitRepository.__init__: empty storage, counter starts at 1. -/
def HabitRepository.empty : HabitRepository :=
  { habits := [], next_id := 1 }

/-- HabitRepository.create: stamp the next id onto the data, store the
record, bump the counter, return the new habit. -/
def HabitRepository.create (repo : HabitRepository) (data : HabitData) :
    Habit × HabitRepository :=
  let habit : Habit :=
    { id := repo.next_id
      name := data.name
      description := data.description
      status := data.status
      streak_days := data.streak_days
      last_completed_at := data.last_completed_at }
  (habit, { habits := repo.habits ++ [habit], next_id := repo.next_id + 1 })

/-- HabitRepository.get_by_id: dict lookup by id. -/
def HabitRepository.get_by_id (repo : HabitRepository) (habit_id : Int) : Option Habit :=
  repo.habits.find? (fun h => h.id == habit_id)

/-- HabitRepository.get_all: all stored habits in insertion order. -/
def HabitRepository.get_all (repo : HabitRepository) : List Habit :=
  repo.habits

/-- HabitRepository.update: if the id is absent return None and leave the
store untouched; otherwise merge the updates onto the stored record and
return the merged habit. -/
def HabitRepository.update (repo : HabitRepository) (habit_id : Int)
    (u : HabitUpdates) : Option Habit × HabitRepository :=
  match repo.get_by_id habit_id with
  | none => (none, repo)
  | some h =>
      (some (applyUpdates h u),
       { repo with
          habits := repo.habits.map (fun x => if x.id = habit_id then applyUpdates x u else x) })

/-- HabitRepository.delete: remove the record if present, report whether
something was removed. -/
def HabitRepository.delete (repo : HabitRepository) (habit_id : Int) :
    Bool × HabitRepository :=
  if repo.habits.any (fun h => h.id == habit_id) then
    (true, { repo with habits := repo.habits.filter (fun h => h.id != habit_id) })
  else
    (false, repo)

/-- The InvalidHabitDataError raised for a non-positive id, with the payload
built in src/services/habit_service.py. -/
def invalidIdError (habit_id : Int) : ServiceError :=
  .invalidHabitData "habit_id" (toString habit_id) "Habit ID must be a positive integer"

namespace HabitService

/-- HabitService.create_habit: defaults status=pending, streak_days=0,
last_completed_at=None, then Store.create. No validation of its own. -/
def create_habit (repo : HabitRepository) (req : CreateHabitRequest) :
    Habit × HabitRepository :=
  repo.create
    { name := req.name
      description := req.description
      status := .pending
      streak_days := 0
      last_completed_at := none }

/-- HabitService.get_habit_by_id: validate the id, then fetch, upgrading a
miss to HabitNotFound. -/
def get_habit_by_id (repo : HabitRepository) (habit_id : Int) :
    Except ServiceError Habit :=
  if habit_id ≤ 0 then .error (invalidIdError habit_id)
  else
    match repo.get_by_id habit_id with
    | none => .error (.habitNotFound habit_id)
    | some h => .ok h

/-- HabitService.update_habit: validate id, check existence, reject an
all-None payload, then apply only the supplied fields via Store.update. -/
def update_habit (repo : HabitRepository) (habit_id : Int)
    (req : UpdateHabitRequest) : Except ServiceError Habit × HabitRepository :=
  if habit_id ≤ 0 then (.error (invalidIdError habit_id), repo)
  else
    match get_habit_by_id repo habit_id with
    | .error e => (.error e, repo)
    | .ok _ =>
        if req.name = none ∧ req.description = none ∧ req.status = none then
          (.error (.invalidHabitData "update_request" "empty"
              "At least one field must be provided for update"), repo)
        else
          let u : HabitUpdates :=
            { name := req.name
              description := req.description.map some
              status := req.status }
          match repo.update habit_id u with
          | (none, repo2) => (.error (.habitNotFound habit_id), repo2)
          | (some h2, repo2) => (.ok h2, repo2)

/-- HabitService.delete_habit: validate id, then Store.delete, upgrading a
miss to HabitNotFound. -/
def delete_habit (repo : HabitRepository) (habit_id : Int) :
    Except ServiceError Unit × HabitRepository :=
  if habit_id ≤ 0 then (.error (invalidIdError habit_id), repo)
  else
    match repo.delete habit_id with
    | (true, repo2) => (.ok (), repo2)
    | (false, repo2) => (.error (.habitNotFound habit_id), repo2)

/-- HabitService._calculate_new_streak: 1 on first completion, old streak + 1
when the day gap is exactly 1, reset to 1 on any other gap. -/
def calculate_new_streak (habit : Habit) (completion_date : Int) : Nat :=
  match habit.last_completed_at with
  | none => 1
  | some last => if completion_date - last = 1 then habit.streak_days + 1 else 1

/-- HabitService.complete_habit_today: validate id, default the date to
today, reject future dates, fetch the habit, reject a duplicate completion,
then write status/streak_days/last_completed_at back in one Store.update. -/
def complete_habit_today (repo : HabitRepository) (habit_id : Int)
    (completion_date : Option Int) (today : Int) :
    Except ServiceError Habit × HabitRepository :=
  if habit_id ≤ 0 then (.error (invalidIdError habit_id), repo)
  else
    let d := completion_date.getD today
    if d > today then
      (.error (.invalidHabitData "completion_date" (toString d)
          "Cannot complete habits for future dates"), repo)
    else
      match get_habit_by_id repo habit_id with
      | .error e => (.error e, repo)
      | .ok habit =>
          if habit.last_completed_at = some d then
            (.error (.duplicateCompletion habit.name d), repo)
          else
            let u : HabitUpdates :=
              { status := some .completed
                streak_days := some (calculate_new_streak habit d)
                last_completed_at := some (some d) }
            match repo.update habit_id u with
            | (none, repo2) => (.error (.habitNotFound habit_id), repo2)
            | (some h2, repo2) => (.ok h2, repo2)

/-- HabitService.get_stats: one Store read, three counts recomputed from
scratch; a pure read with no store output. -/
def get_stats (repo : HabitRepository) (today : Int) : StatsResponse :=
  { total_habits := repo.get_all.length
    completed_today :=
      (repo.get_all.filter (fun h => h.last_completed_at == some today)).length
    active_streaks_ge_3 :=
      (repo.get_all.filter (fun h => decide (3 ≤ h.streak_days))).length }

end HabitService

/-!
HTTP boundary validation. The pydantic Field constraints declared on
CreateHabitRequest in src/models/habit.py (name: min_length=1, max_length=80;
description: max_length=280) are enforced when the request model is built,
before HabitService.create_habit ever runs; a violation is a pydantic
ValidationError (a schema violation at the boundary), which is a different
failure kind from the engine's InvalidHabitDataError. Python len counts
Unicode code points, matching String.length.
-/

/-- Failure kinds observable at the POST /habits boundary: a pydantic schema
violation on the request model, or a domain error from the engine. -/
inductive ApiError where
  | schemaViolation (field : String)
  | domain (e : ServiceError)
deriving DecidableEq

/-- Pydantic constraint on CreateHabitRequest.name: 1–80 characters. -/
def validName (name : String) : Bool :=
  1 ≤ name.length && name.length ≤ 80

/-- Pydantic constraint on CreateHabitRequest.description: at most 280
characters when present. -/
def validDescription (description : Option String) : Bool :=
  match description with
  | none => true
  | some s => s.length ≤ 280

/-- Construction of a CreateHabitRequest with pydantic validation, checking
the fields in declaration order. -/
def mkCreateHabitRequest (name : String) (description : Option String) :
    Except ApiError CreateHabitRequest :=
  if !validName name then .error (.schemaViolation "name")
  else if !validDescription description then .error (.schemaViolation "description")
  else .ok { name := name, description := description }

/-- POST /habits as routed in src/main.py: build the request model (pydantic
validation), then call the engine. -/
def post_habits (repo : HabitRepository) (name : String)
    (description : Option String) : Except ApiError (Habit × HabitRepository) :=
  match mkCreateHabitRequest name description with
  | .error e => .error e
  | .ok req => .ok (HabitService.create_habit repo req)

/-- True exactly when the boundary call failed with the engine's
InvalidHabitDataError. -/
def isInvalidDataFailure (r : Except ApiError (Habit × HabitRepository)) : Bool :=
  match r with
  | .error (.domain (.invalidHabitData _ _ _)) => true
  | _ => false

/-!
Reachability: one step per engine operation, with arbitrary arguments and an
arbitrary clock reading per call; the store component of the result.
-/

/-- One engine operation applied to the store. -/
inductive Step : HabitRepository → HabitRepository → Prop where
  | create (repo : HabitRepository) (req : CreateHabitRequest) :
      Step repo (HabitService.create_habit repo req).2
  | update (repo : HabitRepository) (habit_id : Int) (req : UpdateHabitRequest) :
      Step repo (HabitService.update_habit repo habit_id req).2
  | complete (repo : HabitRepository) (habit_id : Int)
      (completion_date : Option Int) (today : Int) :
      Step repo (HabitService.complete_habit_today repo habit_id completion_date today).2
  | delete (repo : HabitRepository) (habit_id : Int) :
      Step repo (HabitService.delete_habit repo habit_id).2

/-- Store states reachable from the fresh store through engine operations. -/
def Reachable (repo : HabitRepository) : Prop :=
  Relation.ReflTransGen Step HabitRepository.empty repo

/-!
Store-level operation traces, for the identifier-assignment claim: any
interleaving of HabitRepository.create and HabitRepository.delete calls.
-/

/-- One store-level mutation: a create with some payload, or a delete. -/
inductive StoreOp where
  | createOp (data : HabitData)
  | deleteOp (habit_id : Int)

/-- Run a sequence of store operations, collecting the identifier each
create call assigns, in order. -/
def runStoreOps : HabitRepository → List StoreOp → HabitRepository × List Int
  | repo, [] => (repo, [])
  | repo, .createOp data :: rest =>
      let created := repo.create data
      let finished := runStoreOps created.2 rest
      (finished.1, created.1.id :: finished.2)
  | repo, .deleteOp habit_id :: rest =>
      runStoreOps (repo.delete habit_id).2 rest

/-- Number of create operations in a trace. -/
def countCreates (ops : List StoreOp) : Nat :=
  ops.countP (fun op => match op with | .createOp _ => true | .deleteOp _ => false)

/-- The arithmetic sequence s, s+1, ..., s+n-1 of integers. -/
def idsFrom (s : Int) : Nat → List Int
  | 0 => []
  | n + 1 => s :: idsFrom (s + 1) n

/-- True exactly when the engine call failed with InvalidHabitDataError. -/
def isInvalidDataError (r : Except ServiceError Habit) : Bool :=
  match r with
  | .error (.invalidHabitData _ _ _) => true
  | _ => false

/-! Helper lemmas. -/

theorem idsFrom_length (n : Nat) : ∀ s : Int, (idsFrom s n).length = n := by
  induction n with
  | zero => intro s; rfl
  | succ n ih => intro s; simp [idsFrom, ih]

theorem idsFrom_le (n : Nat) : ∀ s : Int, ∀ x ∈ idsFrom s n, s ≤ x := by
  induction n with
  | zero => intro s x hx; simp [idsFrom] at hx
  | succ n ih =>
      intro s x hx
      simp only [idsFrom, List.mem_cons] at hx
      rcases hx with rfl | hx
      · exact le_refl x
      · exact le_trans (by omega) (ih (s + 1) x hx)

theorem idsFrom_pairwise (n : Nat) : ∀ s : Int, List.Pairwise (· < ·) (idsFrom s n) := by
  induction n with
  | zero => intro s; simp [idsFrom]
  | succ n ih =>
      intro s
      refine List.Pairwise.cons ?_ (ih (s + 1))
      intro x hx
      exact lt_of_lt_of_le (by omega) (idsFrom_le n (s + 1) x hx)

theorem runStoreOps_ids (ops : List StoreOp) :
    ∀ repo : HabitRepository,
      (runStoreOps repo ops).2 = idsFrom repo.next_id (countCreates ops) := by
  induction ops with
  | nil => intro repo; simp [runStoreOps, countCreates, idsFrom]
  | cons op rest ih =>
      intro repo
      cases op with
      | createOp data =>
          simp only [runStoreOps, countCreates, List.countP_cons]
          simp only [countCreates] at ih
          rw [ih]
          simp [HabitRepository.create, idsFrom, Nat.add_comm]
      | deleteOp habit_id =>
          simp only [runStoreOps, countCreates, List.countP_cons]
          simp only [countCreates] at ih
          rw [ih]
          simp only [HabitRepository.delete]
          split <;> simp

/-- HabitService.get_habit_by_id succeeds only on a store hit. -/
theorem get_habit_by_id_ok {repo : HabitRepository} {habit_id : Int} {h : Habit}
    (hok : HabitService.get_habit_by_id repo habit_id = .ok h) :
    repo.get_by_id habit_id = some h := by
  unfold HabitService.get_habit_by_id at hok
  split at hok
  · exact absurd hok (by simp)
  · cases hg : repo.get_by_id habit_id <;> rw [hg] at hok <;> simp_all

/-- A store update that returns None leaves the store untouched. -/
theorem update_miss_frame (repo : HabitRepository) (habit_id : Int) (u : HabitUpdates)
    (h : (repo.update habit_id u).1 = none) : (repo.update habit_id u).2 = repo := by
  unfold HabitRepository.update at h ⊢
  cases hg : repo.get_by_id habit_id <;> simp [hg] at h ⊢

/-!
Claim theorems.
-/

/-- C6: creating N habits through the store, with arbitrarily interleaved
deletions, assigns the N identifiers 1, 2, ..., N in order: N distinct,
strictly increasing identifiers starting at 1 and incrementing by 1 per
creation, and an identifier is never reused after its habit is deleted. -/
theorem create_ids_monotone (ops : List StoreOp) :
    (runStoreOps HabitRepository.empty ops).2 = idsFrom 1 (countCreates ops) ∧
    (runStoreOps HabitRepository.empty ops).2.length = countCreates ops ∧
    List.Pairwise (· < ·) (runStoreOps HabitRepository.empty ops).2 ∧
    (runStoreOps HabitRepository.empty ops).2.Nodup := by
  have h : (runStoreOps HabitRepository.empty ops).2 = idsFrom 1 (countCreates ops) :=
    runStoreOps_ids ops HabitRepository.empty
  refine ⟨h, ?_, ?_, ?_⟩
  · rw [h]; exact idsFrom_length _ _
  · rw [h]; exact idsFrom_pairwise _ _
  · rw [h]; exact (idsFrom_pairwise _ _).imp ne_of_lt

/-- C9: complete_habit validates before fetching: a non-positive id fails
with InvalidHabitData; a date strictly after today fails with the
InvalidHabitData future-date error for every positive id (existing or not),
and with some InvalidHabitData error for every id whatsoever; HabitNotFound
can only come out when the id is positive and the date is not in the
future. -/
theorem complete_validation_order (repo : HabitRepository) (habit_id D today : Int) :
    (habit_id ≤ 0 →
      (HabitService.complete_habit_today repo habit_id (some D) today).1 =
        .error (invalidIdError habit_id)) ∧
    (0 < habit_id → today < D →
      (HabitService.complete_habit_today repo habit_id (some D) today).1 =
        .error (.invalidHabitData "completion_date" (toString D)
          "Cannot complete habits for future dates")) ∧
    (today < D →
      isInvalidDataError
        (HabitService.complete_habit_today repo habit_id (some D) today).1 = true) ∧
    (∀ missing_id : Int,
      (HabitService.complete_habit_today repo habit_id (some D) today).1 =
        .error (.habitNotFound missing_id) →
      0 < habit_id ∧ D ≤ today) := by
  refine ⟨?_, ?_, ?_, ?_⟩
  · intro h
    simp [HabitService.complete_habit_today, h]
  · intro h1 h2
    have hneg : ¬ habit_id ≤ 0 := not_le.mpr h1
    simp [HabitService.complete_habit_today, hneg, h2]
  · intro h2
    by_cases h1 : habit_id ≤ 0
    · simp [HabitService.complete_habit_today, h1, invalidIdError, isInvalidDataError]
    · simp [HabitService.complete_habit_today, h1, h2, isInvalidDataError]
  · intro missing_id h
    by_cases h1 : habit_id ≤ 0
    · simp [HabitService.complete_habit_today, h1, invalidIdError] at h
    · by_cases h2 : today < D
      · simp [HabitService.complete_habit_today, h1, h2] at h
      · exact ⟨not_le.mp h1, not_lt.mp h2⟩

/-- C9 witness: concrete instances of the validation-order theorem. -/
theorem complete_validation_order_witness :
    (HabitService.complete_habit_today HabitRepository.empty (-1) (some 5) 10).1 =
      .error (invalidIdError (-1)) ∧
    (HabitService.complete_habit_today HabitRepository.empty 7 (some 11) 10).1 =
      .error (.invalidHabitData "completion_date" (toString (11 : Int))
        "Cannot complete habits for future dates") :=
  ⟨(complete_validation_order HabitRepository.empty (-1) 5 10).1 (by decide),
   (complete_validation_order HabitRepository.empty 7 11 10).2.1 (by decide) (by decide)⟩

/-- Habit created by the engine from a fresh store, for concrete instances. -/
def habitEx : Habit :=
  (HabitService.create_habit HabitRepository.empty ⟨"Exercise", none⟩).1

/-- Store holding exactly habitEx, as produced by the engine. -/
def repoEx : HabitRepository :=
  (HabitService.create_habit HabitRepository.empty ⟨"Exercise", none⟩).2

/-- A habit already completed on day 5, for concrete instances. -/
def habitDone : Habit :=
  { id := 1, name := "Exercise", description := none, status := .completed,
    streak_days := 1, last_completed_at := some 5 }

/-- Store holding exactly habitDone. -/
def repoDone : HabitRepository :=
  { habits := [habitDone], next_id := 2 }

/-- C1: for every stored habit and valid completion date D (not after today,
not equal to the stored last_completed_at), complete_habit succeeds and, in
one store update, writes back status=completed, last_completed_at=D, and
streak_days = 1 when never completed, old streak + 1 when the gap is exactly
one day, and 1 for any other gap (a date before the stored one included);
id, name and description are untouched, and so is every other habit. -/
theorem complete_habit_success_spec (repo : HabitRepository) (habit : Habit)
    (habit_id D today : Int)
    (hpos : 0 < habit_id)
    (hfound : repo.get_by_id habit_id = some habit)
    (hvalid : D ≤ today)
    (hnew : habit.last_completed_at ≠ some D) :
    HabitService.complete_habit_today repo habit_id (some D) today =
      (.ok { habit with
               status := Status.completed
               streak_days :=
                 match habit.last_completed_at with
                 | none => 1
                 | some last => if D - last = 1 then habit.streak_days + 1 else 1
               last_completed_at := some D },
       { repo with
          habits := repo.habits.map (fun x =>
            if x.id = habit_id then
              { x with
                  status := Status.completed
                  streak_days :=
                    match habit.last_completed_at with
                    | none => 1
                    | some last => if D - last = 1 then habit.streak_days + 1 else 1
                  last_completed_at := some D }
            else x) }) := by
  have hneg : ¬ habit_id ≤ 0 := not_le.mpr hpos
  have hnfut : ¬ D > today := not_lt.mpr hvalid
  simp [HabitService.complete_habit_today, HabitService.get_habit_by_id,
    HabitRepository.update, HabitService.calculate_new_streak, applyUpdates,
    hneg, hnfut, hfound, hnew]

/-- C1 witness: completing the freshly created habit at day 5 (today = 10)
stores streak 1, status completed, last_completed_at 5. -/
theorem complete_habit_success_spec_witness :
    HabitService.complete_habit_today repoEx 1 (some 5) 10 =
      (.ok { habitEx with
               status := Status.completed
               streak_days :=
                 match habitEx.last_completed_at with
                 | none => 1
                 | some last => if (5 : Int) - last = 1 then habitEx.streak_days + 1 else 1
               last_completed_at := some 5 },
       { repoEx with
          habits := repoEx.habits.map (fun x =>
            if x.id = 1 then
              { x with
                  status := Status.completed
                  streak_days :=
                    match habitEx.last_completed_at with
                    | none => 1
                    | some last => if (5 : Int) - last = 1 then habitEx.streak_days + 1 else 1
                  last_completed_at := some 5 }
            else x) }) :=
  complete_habit_success_spec repoEx habitEx 1 5 10 (by decide) (by decide)
    (by decide) (by decide)

/-- C2: completing a habit on the exact date already stored in
last_completed_at fails with DuplicateCompletion carrying the habit's name
and that date, with the store returned unchanged; and complete_habit leaves
the store unchanged on every failure path whatsoever. -/
theorem duplicate_completion_rejected (repo : HabitRepository) (habit : Habit)
    (habit_id D today : Int)
    (hpos : 0 < habit_id)
    (hvalid : D ≤ today)
    (hfound : repo.get_by_id habit_id = some habit)
    (hdup : habit.last_completed_at = some D) :
    HabitService.complete_habit_today repo habit_id (some D) today =
      (.error (.duplicateCompletion habit.name D), repo) ∧
    ∀ (repo2 : HabitRepository) (id2 : Int) (d2 : Option Int) (t2 : Int)
      (e : ServiceError),
      (HabitService.complete_habit_today repo2 id2 d2 t2).1 = .error e →
      (HabitService.complete_habit_today repo2 id2 d2 t2).2 = repo2 := by
  constructor
  · have hneg : ¬ habit_id ≤ 0 := not_le.mpr hpos
    have hnfut : ¬ D > today := not_lt.mpr hvalid
    simp [HabitService.complete_habit_today, HabitService.get_habit_by_id,
      hneg, hnfut, hfound, hdup]
  · intro repo2 id2 d2 t2 e h
    by_cases h1 : id2 ≤ 0
    · simp [HabitService.complete_habit_today, h1]
    · by_cases h2 : d2.getD t2 > t2
      · simp [HabitService.complete_habit_today, h1, h2]
      · cases hg : HabitService.get_habit_by_id repo2 id2 with
        | error e2 => simp [HabitService.complete_habit_today, h1, h2, hg]
        | ok habit2 =>
            by_cases h3 : habit2.last_completed_at = some (d2.getD t2)
            · simp [HabitService.complete_habit_today, h1, h2, hg, h3]
            · have hfound2 : repo2.get_by_id id2 = some habit2 := get_habit_by_id_ok hg
              simp [HabitService.complete_habit_today, HabitRepository.update,
                h1, h2, hg, h3, hfound2] at h

/-- C2 witness: re-completing habitDone on its stored day 5 fails with
DuplicateCompletion and leaves the store exactly as it was. -/
theorem duplicate_completion_rejected_witness :
    HabitService.complete_habit_today repoDone 1 (some 5) 10 =
      (.error (.duplicateCompletion "Exercise" 5), repoDone) :=
  (duplicate_completion_rejected repoDone habitDone 1 5 10 (by decide) (by decide)
    (by decide) (by decide)).1

/-- C4: for an existing habit and a payload with at least one non-null
field, update_habit succeeds, changes exactly the supplied fields among
name, description and status (unsupplied fields kept), and never touches id,
streak_days or last_completed_at — visible in the returned habit being the
stored one with only those three fields merged, on every store entry the
update touches, with the rest of the store and the id counter unchanged. -/
theorem update_habit_frame (repo : HabitRepository) (habit : Habit)
    (habit_id : Int) (req : UpdateHabitRequest)
    (hpos : 0 < habit_id)
    (hfound : repo.get_by_id habit_id = some habit)
    (hnonempty : ¬ (req.name = none ∧ req.description = none ∧ req.status = none)) :
    HabitService.update_habit repo habit_id req =
      (.ok { habit with
               name := req.name.getD habit.name
               description :=
                 match req.description with
                 | none => habit.description
                 | some d => some d
               status := req.status.getD habit.status },
       { repo with
          habits := repo.habits.map (fun x =>
            if x.id = habit_id then
              { x with
                  name := req.name.getD x.name
                  description :=
                    match req.description with
                    | none => x.description
                    | some d => some d
                  status := req.status.getD x.status }
            else x) }) := by
  have hneg : ¬ habit_id ≤ 0 := not_le.mpr hpos
  have hok : HabitService.get_habit_by_id repo habit_id = .ok habit := by
    simp [HabitService.get_habit_by_id, hneg, hfound]
  simp only [HabitService.update_habit, hneg, if_neg, if_false, hok,
    hnonempty, HabitRepository.update, hfound, applyUpdates]
  cases hd : req.description with
  | none => simp [hd]
  | some d => simp [hd]

/-- C4 witness: renaming habitDone and marking it pending leaves id,
streak_days and last_completed_at untouched and keeps the description. -/
theorem update_habit_frame_witness :
    HabitService.update_habit repoDone 1 ⟨some "Run", none, some Status.pending⟩ =
      (.ok { habitDone with
               name := (some "Run").getD habitDone.name
               description :=
                 match (none : Option String) with
                 | none => habitDone.description
                 | some d => some d
               status := (some Status.pending).getD habitDone.status },
       { repoDone with
          habits := repoDone.habits.map (fun x =>
            if x.id = 1 then
              { x with
                  name := (some "Run").getD x.name
                  description :=
                    match (none : Option String) with
                    | none => x.description
                    | some d => some d
                  status := (some Status.pending).getD x.status }
            else x) }) :=
  update_habit_frame repoDone habitDone 1 ⟨some "Run", none, some Status.pending⟩
    (by decide) (by decide) (by simp)

/-- C8 counterexample: with an all-null payload and an id that exists in no
store (the fresh store, id 1), update_habit fails with HabitNotFound, not
with InvalidHabitData as the claim states. -/
theorem update_empty_payload_counterexample :
    HabitService.update_habit HabitRepository.empty 1 ⟨none, none, none⟩ =
      (.error (.habitNotFound 1), HabitRepository.empty) ∧
    isInvalidDataError
      (HabitService.update_habit HabitRepository.empty 1 ⟨none, none, none⟩).1 = false := by
  constructor <;> rfl

/-- C8 amended: the existence check runs before the empty-payload check:
with an all-null payload, update_habit fails with InvalidHabitData exactly
when a habit with that (positive) id exists, and with HabitNotFound when it
does not; the store is unchanged either way. -/
theorem update_existence_before_empty_check (repo : HabitRepository)
    (habit_id : Int) (req : UpdateHabitRequest)
    (hpos : 0 < habit_id)
    (hempty : req.name = none ∧ req.description = none ∧ req.status = none) :
    (repo.get_by_id habit_id = none →
      HabitService.update_habit repo habit_id req =
        (.error (.habitNotFound habit_id), repo)) ∧
    (∀ habit : Habit, repo.get_by_id habit_id = some habit →
      HabitService.update_habit repo habit_id req =
        (.error (.invalidHabitData "update_request" "empty"
            "At least one field must be provided for update"), repo)) := by
  have hneg : ¬ habit_id ≤ 0 := not_le.mpr hpos
  constructor
  · intro hmiss
    simp [HabitService.update_habit, HabitService.get_habit_by_id, hneg, hmiss]
  · intro habit hfound
    simp [HabitService.update_habit, HabitService.get_habit_by_id, hneg, hfound, hempty]

/-- C8 amended witness: on a store holding habit 1, the all-null payload is
rejected as InvalidHabitData; on the fresh store the same call is
HabitNotFound. -/
theorem update_existence_before_empty_check_witness :
    HabitService.update_habit repoDone 1 ⟨none, none, none⟩ =
      (.error (.invalidHabitData "update_request" "empty"
          "At least one field must be provided for update"), repoDone) ∧
    HabitService.update_habit HabitRepository.empty 2 ⟨none, none, none⟩ =
      (.error (.habitNotFound 2), HabitRepository.empty) :=
  ⟨(update_existence_before_empty_check repoDone 1 ⟨none, none, none⟩
      (by decide) (by decide)).2 habitDone (by decide),
   (update_existence_before_empty_check HabitRepository.empty 2 ⟨none, none, none⟩
      (by decide) (by decide)).1 (by decide)⟩

/-- C5: get_stats returns total_habits = number of stored habits,
completed_today = number of habits whose last_completed_at equals the today
passed at call time, and active_streaks_ge_3 = number of habits with
streak_days at least 3; all three counts are unchanged by arbitrary
reassignment of every habit's status field, and get_stats takes no store
output (a pure read). -/
theorem get_stats_spec (repo : HabitRepository) (today : Int) :
    (HabitService.get_stats repo today).total_habits = repo.get_all.length ∧
    (HabitService.get_stats repo today).completed_today =
      repo.get_all.countP (fun h => decide (h.last_completed_at = some today)) ∧
    (HabitService.get_stats repo today).active_streaks_ge_3 =
      repo.get_all.countP (fun h => decide (3 ≤ h.streak_days)) ∧
    ∀ f : Habit → Status,
      HabitService.get_stats
        { repo with habits := repo.habits.map (fun h => { h with status := f h }) }
        today =
      HabitService.get_stats repo today := by
  refine ⟨rfl, ?_, ?_, ?_⟩
  · have e : (fun (h : Habit) => h.last_completed_at == some today) =
        (fun (h : Habit) => decide (h.last_completed_at = some today)) := by
      funext h
      by_cases hc : h.last_completed_at = some today <;> simp [hc]
    simp only [HabitService.get_stats, HabitRepository.get_all,
      List.countP_eq_length_filter, e]
  · simp only [HabitService.get_stats, HabitRepository.get_all,
      List.countP_eq_length_filter]
  · intro f
    simp only [HabitService.get_stats, HabitRepository.get_all, List.filter_map,
      List.length_map]
    rfl

/-- C7 counterexample: creating a habit with the empty name (length 0,
outside 1–80) is rejected as a schema violation on the request model, not
with the engine's InvalidHabitData as the claim states. -/
theorem create_invalid_name_counterexample :
    post_habits HabitRepository.empty "" none = .error (.schemaViolation "name") ∧
    isInvalidDataFailure (post_habits HabitRepository.empty "" none) = false := by
  constructor <;> rfl

/-- C7 amended: a name whose Unicode scalar length is outside 1–80, or a
description longer than 280 characters, is rejected before the engine runs,
by the request model's schema validation (pydantic), never as
InvalidHabitData; with valid inputs the engine creates the habit with
status=pending, streak_days=0, last_completed_at=None and the next store
id. -/
theorem create_validation_boundary (repo : HabitRepository) (name : String)
    (description : Option String) :
    (¬ (1 ≤ name.length ∧ name.length ≤ 80) →
      post_habits repo name description = .error (.schemaViolation "name") ∧
      isInvalidDataFailure (post_habits repo name description) = false) ∧
    ((1 ≤ name.length ∧ name.length ≤ 80) →
      ∀ s : String, description = some s → 280 < s.length →
        post_habits repo name description = .error (.schemaViolation "description") ∧
        isInvalidDataFailure (post_habits repo name description) = false) ∧
    ((1 ≤ name.length ∧ name.length ≤ 80) → validDescription description = true →
      post_habits repo name description =
        .ok (HabitService.create_habit repo { name := name, description := description }) ∧
      (HabitService.create_habit repo { name := name, description := description }).1.status
        = Status.pending ∧
      (HabitService.create_habit repo { name := name, description := description }).1.streak_days
        = 0 ∧
      (HabitService.create_habit repo { name := name, description := description }).1.last_completed_at
        = none ∧
      (HabitService.create_habit repo { name := name, description := description }).1.name
        = name ∧
      (HabitService.create_habit repo { name := name, description := description }).1.description
        = description ∧
      (HabitService.create_habit repo { name := name, description := description }).1.id
        = repo.next_id) := by
  refine ⟨?_, ?_, ?_⟩
  · intro h
    cases hv : validName name with
    | false => simp [post_habits, mkCreateHabitRequest, hv, isInvalidDataFailure]
    | true => exact absurd (by simpa [validName] using hv) h
  · intro h s hdesc hlen
    have hv : validName name = true := by simp [validName]; exact h
    have hd : validDescription description = false := by
      simp [validDescription, hdesc]; omega
    simp [post_habits, mkCreateHabitRequest, hv, hd, isInvalidDataFailure]
  · intro h hd
    have hv : validName name = true := by simp [validName]; exact h
    refine ⟨by simp [post_habits, mkCreateHabitRequest, hv, hd], rfl, rfl, rfl, rfl, rfl, rfl⟩

/-- C7 witness: the valid name "Exercise" passes the boundary and the
engine creates the habit with the documented defaults. -/
theorem create_validation_boundary_witness :
    post_habits HabitRepository.empty "Exercise" none =
      .ok (HabitService.create_habit HabitRepository.empty
        { name := "Exercise", description := none }) ∧
    (HabitService.create_habit HabitRepository.empty
        { name := "Exercise", description := none }).1.status = Status.pending ∧
    (HabitService.create_habit HabitRepository.empty
        { name := "Exercise", description := none }).1.streak_days = 0 ∧
    (HabitService.create_habit HabitRepository.empty
        { name := "Exercise", description := none }).1.last_completed_at = none ∧
    (HabitService.create_habit HabitRepository.empty
        { name := "Exercise", description := none }).1.name = "Exercise" ∧
    (HabitService.create_habit HabitRepository.empty
        { name := "Exercise", description := none }).1.description = none ∧
    (HabitService.create_habit HabitRepository.empty
        { name := "Exercise", description := none }).1.id = HabitRepository.empty.next_id :=
  (create_validation_boundary HabitRepository.empty "Exercise" none).2.2
    (by decide) (by decide)

/-- The spec's streak/date consistency invariant on one habit. -/
def streakConsistent (h : Habit) : Prop :=
  h.streak_days = 0 ↔ h.last_completed_at = none

/-- The invariant over every habit in the store. -/
def StoreInv (repo : HabitRepository) : Prop :=
  ∀ h ∈ repo.habits, streakConsistent h

theorem calculate_new_streak_pos (habit : Habit) (d : Int) :
    1 ≤ HabitService.calculate_new_streak habit d := by
  cases habit with
  | mk id name desc st streak last =>
      cases last with
      | none => simp [HabitService.calculate_new_streak]
      | some l =>
          simp only [HabitService.calculate_new_streak]
          split <;> omega

/-- A store update whose merge preserves the invariant on one habit
preserves the invariant on the whole store. -/
theorem storeInv_update (repo : HabitRepository) (habit_id : Int) (u : HabitUpdates)
    (hinv : StoreInv repo)
    (hok : ∀ x : Habit, streakConsistent x → streakConsistent (applyUpdates x u)) :
    StoreInv (repo.update habit_id u).2 := by
  unfold HabitRepository.update
  cases hg : repo.get_by_id habit_id with
  | none => exact hinv
  | some h0 =>
      intro x hx
      simp only [List.mem_map] at hx
      obtain ⟨y, hy, rfl⟩ := hx
      by_cases hid : y.id = habit_id
      · simpa [hid] using hok y (hinv y hy)
      · simpa [hid] using hinv y hy

/-- Every engine operation preserves the store invariant. -/
theorem storeInv_step (r r2 : HabitRepository) (hinv : StoreInv r)
    (hstep : Step r r2) : StoreInv r2 := by
  cases hstep with
  | create req =>
      intro x hx
      simp only [HabitService.create_habit, HabitRepository.create,
        List.mem_append, List.mem_singleton] at hx
      rcases hx with hx | rfl
      · exact hinv x hx
      · simp [streakConsistent]
  | update habit_id req =>
      unfold HabitService.update_habit
      by_cases h1 : habit_id ≤ 0
      · simpa [h1] using hinv
      · cases hg : HabitService.get_habit_by_id r habit_id with
        | error e => simpa [h1, hg] using hinv
        | ok h0 =>
            by_cases h2 : req.name = none ∧ req.description = none ∧ req.status = none
            · simpa [h1, hg, h2] using hinv
            · have hsub : StoreInv (r.update habit_id
                  { name := req.name, description := req.description.map some,
                    status := req.status }).2 :=
                storeInv_update _ _ _ hinv (by
                  intro x hc
                  simpa [streakConsistent, applyUpdates] using hc)
              cases hu : r.update habit_id
                  { name := req.name, description := req.description.map some,
                    status := req.status } with
              | mk o r3 =>
                  have hr3 : StoreInv r3 := by
                    have h4 := congrArg Prod.snd hu
                    simp only [] at h4
                    exact h4 ▸ hsub
                  cases o <;> simpa [h1, hg, h2, hu] using hr3
  | complete habit_id d t =>
      unfold HabitService.complete_habit_today
      by_cases h1 : habit_id ≤ 0
      · simpa [h1] using hinv
      · by_cases h2 : d.getD t > t
        · simpa [h1, h2] using hinv
        · cases hg : HabitService.get_habit_by_id r habit_id with
          | error e => simpa [h1, h2, hg] using hinv
          | ok h0 =>
              by_cases h3 : h0.last_completed_at = some (d.getD t)
              · simpa [h1, h2, hg, h3] using hinv
              · have hsub : StoreInv (r.update habit_id
                    { status := some .completed,
                      streak_days := some (HabitService.calculate_new_streak h0 (d.getD t)),
                      last_completed_at := some (some (d.getD t)) }).2 :=
                  storeInv_update _ _ _ hinv (by
                    intro x hc
                    have hpos := calculate_new_streak_pos h0 (d.getD t)
                    simp [streakConsistent, applyUpdates]
                    omega)
                cases hu : r.update habit_id
                    { status := some .completed,
                      streak_days := some (HabitService.calculate_new_streak h0 (d.getD t)),
                      last_completed_at := some (some (d.getD t)) } with
                | mk o r3 =>
                    have hr3 : StoreInv r3 := by
                      have h4 := congrArg Prod.snd hu
                      simp only [] at h4
                      exact h4 ▸ hsub
                    cases o <;> simpa [h1, h2, hg, h3, hu] using hr3
  | delete habit_id =>
      unfold HabitService.delete_habit HabitRepository.delete
      by_cases h1 : habit_id ≤ 0
      · simpa [h1] using hinv
      · by_cases h2 : r.habits.any (fun h => h.id == habit_id)
        · intro x hx
          simp only [h1, h2, if_false, if_true, Bool.false_eq_true,
            not_false_eq_true] at hx
          simp at hx
          exact hinv x hx.1
        · simpa [h1, h2] using hinv

/-- The store invariant holds in every reachable store state. -/
theorem storeInv_reachable (repo : HabitRepository) (hreach : Reachable repo) :
    StoreInv repo := by
  have hr : Relation.ReflTransGen Step HabitRepository.empty repo := hreach
  clear hreach
  induction hr with
  | refl => intro x hx; simp [HabitRepository.empty] at hx
  | tail hab hstep ih => exact storeInv_step _ _ ih hstep

/-- C3: every habit in a store state reachable through the engine
operations (create, update, complete, delete, with arbitrary arguments and
clock readings) has streak_days = 0 exactly when last_completed_at is None,
and streak_days at least 1 whenever last_completed_at is set. -/
theorem streak_invariant_reachable (repo : HabitRepository)
    (hreach : Reachable repo) (h : Habit) (hmem : h ∈ repo.get_all) :
    (h.streak_days = 0 ↔ h.last_completed_at = none) ∧
    (h.last_completed_at ≠ none → 1 ≤ h.streak_days) := by
  have hc := storeInv_reachable repo hreach h hmem
  refine ⟨hc, fun hne => ?_⟩
  have hz : h.streak_days ≠ 0 := fun h0 => hne (hc.mp h0)
  omega

/-- C3 witness: the invariant holds for the habit stored in the reachable
one-create store. -/
theorem streak_invariant_reachable_witness :
    ((habitEx.streak_days = 0 ↔ habitEx.last_completed_at = none) ∧
     (habitEx.last_completed_at ≠ none → 1 ≤ habitEx.streak_days)) :=
  streak_invariant_reachable repoEx
    (Relation.ReflTransGen.single
      (Step.create HabitRepository.empty ⟨"Exercise", none⟩))
    habitEx (by decide)

/-- Store state with habit 1 manually marked completed without ever being
completed, produced by the engine. -/
def repoMarked : HabitRepository :=
  (HabitService.update_habit repoEx 1 ⟨none, none, some Status.completed⟩).2

/-- C10: from a reachable state, update_habit can set status=completed on a
never-completed habit: the result has status=completed with streak_days=0
and last_completed_at=None, the resulting store is reachable, and get_stats
on it counts the habit in total_habits but in neither completed_today nor
active_streaks_ge_3, whatever today is. -/
theorem status_completed_without_completion :
    Reachable repoMarked ∧
    (HabitService.update_habit repoEx 1 ⟨none, none, some Status.completed⟩).1 =
      .ok { habitEx with status := Status.completed } ∧
    habitEx.last_completed_at = none ∧
    habitEx.streak_days = 0 ∧
    ∀ today : Int,
      HabitService.get_stats repoMarked today =
        { total_habits := 1, completed_today := 0, active_streaks_ge_3 := 0 } := by
  refine ⟨?_, rfl, rfl, rfl, ?_⟩
  · exact Relation.ReflTransGen.tail
      (Relation.ReflTransGen.single
        (Step.create HabitRepository.empty ⟨"Exercise", none⟩))
      (Step.update repoEx 1 ⟨none, none, some Status.completed⟩)
  · intro today
    have hm : repoMarked.habits =
        [{ habitEx with status := Status.completed }] := rfl
    simp [HabitService.get_stats, HabitRepository.get_all, hm, habitEx,
      HabitService.create_habit, HabitRepository.create]

end HabitTracker
